import Mathlib

/-!
Shallow embedding of the recipe-extraction program
(`Models.py`, `Recipe_Extractor_Demo.py`, `Recipe_Extractor_Main.py`).

The external world is made explicit:
* a JSON value type stands for the Python values produced by `json.loads`;
* an extraction payload is embedded as the outcome of `json.loads` on the
  payload string (either `malformed`, meaning `loads` raised, or `parsed j`);
* the result of the `lx.extract` network call is a parameter of
  `extract_recipe` (`raises` when the call throws, `ok exts` otherwise; a
  falsy or attribute-less result behaves exactly like `ok []`);
* character predicates (`isalnum`, whitespace, `lower`) are modelled over
  the ASCII range, which is the range every claim exercises.
-/

/-- A JSON value as produced by Python's `json.loads`.  Numbers are carried
as rationals; object fields keep their (unique-key) insertion order. -/
inductive Json where
  | null
  | bool (b : Bool)
  | num (q : Rat)
  | str (s : String)
  | arr (elts : List Json)
  | obj (fields : List (String × Json))
deriving Repr

/-- Python `dict.get(key)` on the field list of a JSON object:
`none` when the key is absent. -/
def Json.lookupField (fields : List (String × Json)) (key : String) : Option Json :=
  match fields with
  | [] => none
  | (k, v) :: rest => if k = key then some v else Json.lookupField rest key

/-- Python truthiness of a decoded JSON value (`None`, `False`, `0`, `""`,
`[]`, `{}` are falsy). -/
def Json.truthy : Json → Bool
  | .null => false
  | .bool b => b
  | .num q => decide (q ≠ 0)
  | .str s => decide (s ≠ "")
  | .arr elts => !elts.isEmpty
  | .obj fields => !fields.isEmpty

/-- Truthiness of `recipe_data.get('title')`: a missing key yields Python
`None`, which is falsy. -/
def truthyGet (fields : List (String × Json)) (key : String) : Bool :=
  match Json.lookupField fields key with
  | none => false
  | some v => v.truthy

/-- A structured representation of a single ingredient (`Models.Ingredient`). -/
structure Ingredient where
  name : String
  quantity : Option Rat
  unit : Option String
deriving Repr, DecidableEq

/-- The top-level schema for the entire recipe (`Models.Recipe`). -/
structure Recipe where
  title : String
  description : String
  prep_time : String
  cook_time : String
  servings : String
  ingredients : List Ingredient
  instructions : List String
deriving Repr, DecidableEq

/-- `recipe_data.get(key, '')` fed to a pydantic `str` field: a missing key
uses the default `''`; a present string passes; any other present value
(including `null`) fails validation (`none` = `ValidationError` raised). -/
def getStrField (fields : List (String × Json)) (key : String) : Option String :=
  match Json.lookupField fields key with
  | none => some ""
  | some (.str s) => some s
  | some _ => none

/-- Decimal value of a run of ASCII digits. -/
def natOfDigits (ds : List Char) : Nat :=
  ds.foldl (fun a c => a * 10 + (c.toNat - 48)) 0

/-- The optional exponent part of a float literal: nothing, or `e`/`E`, an
optional sign and a nonempty digit run ending the literal.  The mantissa
arrives as the fraction `num / den`; the exponent scales it, and the value
is assembled with `mkRat` from plain naturals. -/
def applyExponent (cs : List Char) (num den : Nat) : Option Rat :=
  match cs with
  | [] => some (mkRat num den)
  | e :: rest =>
      if e == 'e' || e == 'E' then
        let signAndDigits :=
          match rest with
          | '+' :: r => (false, r)
          | '-' :: r => (true, r)
          | r => (false, r)
        let ds := signAndDigits.2.takeWhile Char.isDigit
        if ds.isEmpty || !(signAndDigits.2.dropWhile Char.isDigit).isEmpty then none
        else if signAndDigits.1 then some (mkRat num (den * 10 ^ natOfDigits ds))
        else some (mkRat (num * 10 ^ natOfDigits ds) den)
      else none

/-- An unsigned float literal: `digits`, `digits.digits`, `digits.` or
`.digits`, followed by an optional exponent part. -/
def unsignedFloatOfChars (cs : List Char) : Option Rat :=
  let intDs := cs.takeWhile Char.isDigit
  let afterInt := cs.dropWhile Char.isDigit
  match afterInt with
  | '.' :: rest =>
      let fracDs := rest.takeWhile Char.isDigit
      let afterFrac := rest.dropWhile Char.isDigit
      if intDs.isEmpty && fracDs.isEmpty then none
      else
        applyExponent afterFrac
          (natOfDigits intDs * 10 ^ fracDs.length + natOfDigits fracDs) (10 ^ fracDs.length)
  | _ =>
      if intDs.isEmpty then none
      else applyExponent afterInt (natOfDigits intDs) 1

/-- pydantic v2's lax string-to-float coercion: the string is trimmed of
surrounding whitespace and parsed as an optionally signed decimal float
literal with optional exponent; anything else fails validation.  The value
is carried as the exact rational, the same stand-in for the float64 this
embedding uses everywhere; the non-finite spellings (`inf`, `nan`), which
have no rational counterpart, are outside the modelled range. -/
def pyFloatOfString (s : String) : Option Rat :=
  let cs := ((s.data.dropWhile Char.isWhitespace).reverse.dropWhile Char.isWhitespace).reverse
  match cs with
  | '+' :: rest => unsignedFloatOfChars rest
  | '-' :: rest => (unsignedFloatOfChars rest).map Neg.neg
  | _ => unsignedFloatOfChars cs

/-- `ing.get('quantity')` fed to a pydantic `Optional[float]` field under
v2 lax validation: a missing key or a JSON `null` gives `None`; a number
passes; a numeric string coerces to its value (`pyFloatOfString`); a bool,
being a subclass of `int`, coerces to 1.0/0.0; lists and dicts fail
validation (`none` = `ValidationError` raised). -/
def getQuantityField (fields : List (String × Json)) : Option (Option Rat) :=
  match Json.lookupField fields "quantity" with
  | none => some none
  | some .null => some none
  | some (.num q) => some (some q)
  | some (.bool b) => some (some (if b then 1 else 0))
  | some (.str s) =>
      match pyFloatOfString s with
      | some q => some (some q)
      | none => none
  | some _ => none

/-- `ing.get('unit')` fed to a pydantic `Optional[str]` field. -/
def getUnitField (fields : List (String × Json)) : Option (Option String) :=
  match Json.lookupField fields "unit" with
  | none => some none
  | some .null => some none
  | some (.str s) => some (some s)
  | some _ => none

/-- One pass of the ingredient loop body: `Ingredient(name=ing.get('name',''),
quantity=ing.get('quantity'), unit=ing.get('unit'))`.  A non-dict element
raises `AttributeError` at `.get` (`none`). -/
def ingredientOfJson : Json → Option Ingredient
  | .obj fields => do
      let name ← getStrField fields "name"
      let quantity ← getQuantityField fields
      let u ← getUnitField fields
      pure ⟨name, quantity, u⟩
  | _ => none

/-- `recipe_data.get('ingredients', [])` followed by `for ing in ...`: a
missing key iterates the default `[]`; an array iterates its elements; an
empty string or empty dict iterates zero times; any other value raises once
the loop touches it (iterating a nonempty string or dict hands a bare string
to `.get`, and `null`/numbers/booleans are not iterable). -/
def getIngredientsElems (fields : List (String × Json)) : Option (List Json) :=
  match Json.lookupField fields "ingredients" with
  | none => some []
  | some (.arr elts) => some elts
  | some (.str s) => if s = "" then some [] else none
  | some (.obj fs) => if fs.isEmpty then some [] else none
  | some _ => none

/-- The ingredient loop: builds `Ingredient` objects one by one, aborting the
whole extraction on the first element that raises. -/
def buildIngredients : List Json → Option (List Ingredient)
  | [] => some []
  | j :: rest => do
      let i ← ingredientOfJson j
      let is ← buildIngredients rest
      pure (i :: is)

/-- `recipe_data.get('instructions', [])` fed to a pydantic `List[str]`
field: a missing key defaults to `[]`; an array of strings passes; anything
else fails validation. -/
def getInstructionsField (fields : List (String × Json)) : Option (List String) :=
  match Json.lookupField fields "instructions" with
  | none => some []
  | some (.arr elts) => validateStrList elts
  | some _ => none
where
  validateStrList : List Json → Option (List String)
    | [] => some []
    | .str s :: rest => (validateStrList rest).map (s :: ·)
    | _ => none

/-- The body of the per-extraction `try` block after `json.loads` succeeded
with value `j`: skip (`continue`) when the title is falsy, otherwise build
the ingredient list and the `Recipe`; any raised exception (non-dict data,
pydantic `ValidationError`) is caught and also moves to the next
extraction, so both outcomes are `none`. -/
def recipeOfJson : Json → Option Recipe
  | .obj fields =>
      if truthyGet fields "title" then do
        let elems ← getIngredientsElems fields
        let ingredients ← buildIngredients elems
        let title ← getStrField fields "title"
        let description ← getStrField fields "description"
        let prep_time ← getStrField fields "prep_time"
        let cook_time ← getStrField fields "cook_time"
        let servings ← getStrField fields "servings"
        let instructions ← getInstructionsField fields
        pure ⟨title, description, prep_time, cook_time, servings, ingredients, instructions⟩
      else none
  | _ => none

/-- The outcome of `json.loads(extraction.extraction_text)`: `malformed`
when `loads` raises, `parsed j` when it returns the value `j`. -/
inductive Payload where
  | malformed
  | parsed (value : Json)
deriving Repr

/-- One extraction record of the service result: its class label and the
`json.loads` outcome of its text payload. -/
structure Extraction where
  extraction_class : String
  extraction_text : Payload
deriving Repr

/-- Full handling of one extraction's payload inside the `try` block. -/
def recipeOfPayload : Payload → Option Recipe
  | .malformed => none
  | .parsed j => recipeOfJson j

/-- The `for extraction in result.extractions` loop: the first extraction
whose class label is `"Recipe"` and whose payload yields a `Recipe` is
returned; every other extraction is passed over. -/
def findRecipe : List Extraction → Option Recipe
  | [] => none
  | e :: rest =>
      if e.extraction_class = "Recipe" then
        match recipeOfPayload e.extraction_text with
        | some r => some r
        | none => findRecipe rest
      else findRecipe rest

/-- The observable outcome of the `lx.extract` call: it either raises or
returns a result whose `extractions` attribute holds the given list (a
`None` result or one with a falsy `extractions` behaves as `ok []`). -/
inductive LxResult where
  | raises
  | ok (extractions : List Extraction)
deriving Repr

/-- Python's `str.strip()` over the ASCII whitespace range. -/
def pyStrip (s : String) : String :=
  String.mk (((s.data.dropWhile Char.isWhitespace).reverse.dropWhile Char.isWhitespace).reverse)

/-- `RecipeExtractor.extract_recipe`, instrumented: the boolean records
whether the `lx.extract` call was reached.  Text whose stripped length is
below 100 returns `None` before the call; a raising call is caught by the
outer `except` and returns `None`; otherwise the extraction loop runs. -/
def extract_recipe_run (text : String) (svc : LxResult) : Bool × Option Recipe :=
  if (pyStrip text).length < 100 then (false, none)
  else
    (true, match svc with
      | .raises => none
      | .ok exts => findRecipe exts)

/-- `RecipeExtractor.extract_recipe`: just the returned value. -/
def extract_recipe (text : String) (svc : LxResult) : Option Recipe :=
  (extract_recipe_run text svc).2

/-- A 100-character input text, long enough to pass the length guard. -/
def t100 : String := String.mk (List.replicate 100 'a')

/-! ### `Recipe_Extractor_Main.py` -/

/-- The character filter of the slugification line: Python `c.isalnum()`
(ASCII range) or `c in (' ', '-', '_')`. -/
def keepsChar (c : Char) : Bool :=
  c.isAlphanum || c == ' ' || c == '-' || c == '_'

/-- `safe_title` as `parse_recipe` computes it: keep allowed characters,
`rstrip()` the trailing whitespace, `replace(' ', '_')`, then `lower()`
(ASCII lowercasing). -/
def safe_title_of (title : String) : String :=
  let kept := title.data.filter keepsChar
  let stripped := (kept.reverse.dropWhile Char.isWhitespace).reverse
  let replaced := stripped.map (fun c => if c == ' ' then '_' else c)
  String.mk (replaced.map Char.toLower)

/-- The basename (without extension) of the output files: `safe_title`, or
the input file's stem when the slug came out empty. -/
def output_basename (title : String) (inputStem : String) : String :=
  let s := safe_title_of title
  if s = "" then inputStem else s

/-- Truthiness of the `os.getenv("LANGEXTRACT_API_KEY")` result: unset
(`None`) and the empty string are falsy. -/
def apiKeyTruthy : Option String → Bool
  | none => false
  | some s => decide (s ≠ "")

/-- `main`, instrumented: the boolean records whether `parse_recipe` was
invoked, the number is the process exit code.  A falsy API key exits 1
before any extraction; otherwise the exit code is 0 exactly when
`parse_recipe` returned `True`. -/
def mainRun (apiKey : Option String) (parseOk : Bool) : Bool × Nat :=
  if apiKeyTruthy apiKey then (true, if parseOk then 0 else 1)
  else (false, 1)

/-! ### JSON serialization (`json.dump(recipe.model_dump(), indent=2, ensure_ascii=False)`)

The serializer below mirrors Python's `json.dump` with `indent=2` and
`ensure_ascii=False`: two-space nested indentation, `": "` after keys,
minimal string escaping.  Numbers are rendered from the rational carrier
(`d.0` for an integral value), standing in for Python's float repr. -/

/-- Hexadecimal digit for `\u00XX` escapes of control characters. -/
def hexDigit (n : Nat) : Char :=
  if n < 10 then Char.ofNat (48 + n) else Char.ofNat (87 + n)

/-- JSON escaping of one character (`ensure_ascii=False`): only the quote,
the backslash and control characters are escaped. -/
def escapeChar (c : Char) : List Char :=
  if c == '"' then ['\\', '"']
  else if c == '\\' then ['\\', '\\']
  else if c == '\n' then ['\\', 'n']
  else if c == '\t' then ['\\', 't']
  else if c == '\r' then ['\\', 'r']
  else if c.toNat < 32 then
    ['\\', 'u', '0', '0', hexDigit (c.toNat / 16), hexDigit (c.toNat % 16)]
  else [c]

/-- A JSON string literal: quotes around the escaped characters. -/
def quoteJsonString (s : String) : String :=
  String.mk ('"' :: (s.data.flatMap escapeChar ++ ['"']))

/-- Rendering of a JSON number. -/
def renderNum (q : Rat) : String :=
  if q.den = 1 then toString q.num ++ ".0" else toString q

/-- `n` spaces, the indentation unit being two spaces per level. -/
def indentSp (n : Nat) : String := String.mk (List.replicate n ' ')

/-- `json.dump` with `indent=2`, at nesting depth `ind` (in spaces).  The
`fuel` argument only drives the structural recursion: any value at least
the nesting depth of the document (such as `sizeOf`) leaves the zero-fuel
branch unreachable. -/
def dumpsFuel : Nat → Nat → Json → String
  | 0, _, _ => ""
  | fuel + 1, ind, j =>
    match j with
    | .null => "null"
    | .bool b => if b then "true" else "false"
    | .num q => renderNum q
    | .str s => quoteJsonString s
    | .arr elts =>
        if elts.isEmpty then "[]"
        else
          "[\n" ++
            String.intercalate ",\n"
              (elts.map (fun e => indentSp (ind + 2) ++ dumpsFuel fuel (ind + 2) e)) ++
            "\n" ++ indentSp ind ++ "]"
    | .obj fields =>
        if fields.isEmpty then "\x7b\x7d"
        else
          "\x7b\n" ++
            String.intercalate ",\n"
              (fields.map (fun kv =>
                indentSp (ind + 2) ++ quoteJsonString kv.1 ++ ": " ++
                  dumpsFuel fuel (ind + 2) kv.2)) ++
            "\n" ++ indentSp ind ++ "\x7d"


/-- `Ingredient.model_dump()`: the dict pydantic serializes, fields in
declaration order, absent optionals as `null`. -/
def Ingredient.model_dump (i : Ingredient) : Json :=
  .obj [("name", .str i.name),
        ("quantity", match i.quantity with | some q => .num q | none => .null),
        ("unit", match i.unit with | some u => .str u | none => .null)]

/-- `Recipe.model_dump()`: the dict pydantic serializes, fields in
declaration order. -/
def Recipe.model_dump (r : Recipe) : Json :=
  .obj [("title", .str r.title),
        ("description", .str r.description),
        ("prep_time", .str r.prep_time),
        ("cook_time", .str r.cook_time),
        ("servings", .str r.servings),
        ("ingredients", .arr (r.ingredients.map Ingredient.model_dump)),
        ("instructions", .arr (r.instructions.map Json.str))]

/-- The exact text `json.dump(recipe.model_dump(), f, indent=2,
ensure_ascii=False)` writes.  A dumped recipe nests at most three levels
(recipe object → ingredients array → ingredient object → leaf), so fuel 4
never reaches the zero-fuel branch. -/
def Recipe.dump_json (r : Recipe) : String :=
  dumpsFuel 4 0 r.model_dump

/-- The JSON side of `parse_recipe`: on empty input or failed extraction it
returns `none` (the function returns `False`); otherwise the chosen output
file name and the exact bytes `json.dump` writes into it. -/
def parse_recipe_json (recipeText : String) (inputStem : String) (svc : LxResult) :
    Option (String × String) :=
  if pyStrip recipeText = "" then none
  else
    match extract_recipe recipeText svc with
    | none => none
    | some r => some (output_basename r.title inputStem ++ ".json", r.dump_json)

/-! ### Claim-side definitions -/

/-- Slug computed exactly as claim C3 words it: remove every character that
is not alphanumeric, space, hyphen or underscore, turn spaces into
underscores, lowercase; no other step. -/
def slug_per_claim (title : String) : String :=
  String.mk (((title.data.filter keepsChar).map
    (fun c => if c == ' ' then '_' else c)).map Char.toLower)

/-- Slug as the amended claim C3 words it: the same steps, after first
dropping the trailing whitespace (`rstrip`) left by the character filter. -/
def slug_per_claim_amended (title : String) : String :=
  String.mk ((((title.data.filter keepsChar).reverse.dropWhile Char.isWhitespace).reverse.map
    (fun c => if c == ' ' then '_' else c)).map Char.toLower)

/-- A model-response JSON object with every Recipe and Ingredient field
populated: ingredients given as (name, quantity, unit) triples. -/
def fullRecipeJson (title desc pt ct sv : String)
    (ings : List (String × Rat × String)) (instrs : List String) : Json :=
  .obj [("title", .str title), ("description", .str desc), ("prep_time", .str pt),
        ("cook_time", .str ct), ("servings", .str sv),
        ("ingredients", .arr (ings.map fun t =>
          .obj [("name", .str t.1), ("quantity", .num t.2.1), ("unit", .str t.2.2)])),
        ("instructions", .arr (instrs.map Json.str))]

/-- An ingredient JSON object whose quantity and unit keys are present
exactly when the corresponding option is `some`. -/
def ingredientJson (n : String) (q : Option Rat) (u : Option String) : Json :=
  .obj ([("name", Json.str n)] ++
    (match q with | some x => [("quantity", Json.num x)] | none => []) ++
    (match u with | some x => [("unit", Json.str x)] | none => []))

/-- An extraction the loop accepts: class label `"Recipe"` and a payload
that parses as a JSON object with a truthy title and schema-valid fields
(equivalently, one the per-extraction handler turns into a Recipe). -/
def accepts (e : Extraction) : Bool :=
  (e.extraction_class == "Recipe") && (recipeOfPayload e.extraction_text).isSome

/-- The three conditions claim C1 states for the selected extraction: class
label `"Recipe"`, a payload that parses as JSON (here, as a JSON object, the
only shape with a title field), and a non-empty title field. -/
def claimConditions (e : Extraction) : Bool :=
  (e.extraction_class == "Recipe") &&
    (match e.extraction_text with
     | .parsed (.obj fields) =>
         match Json.lookupField fields "title" with
         | some (.str s) => decide (s ≠ "")
         | _ => false
     | _ => false)

/-- A partial extraction: Recipe class, JSON object without a title. -/
def extractionNoTitle : Extraction :=
  ⟨"Recipe", .parsed (.obj [("description", .str "half a recipe")])⟩

/-- A complete extraction following the partial one in claim C1's scenario. -/
def extractionComplete : Extraction :=
  ⟨"Recipe", .parsed (.obj [("title", .str "Full Cake"), ("description", .str "Good."),
    ("instructions", .arr [.str "Bake."])])⟩

/-! ### Claim theorems -/

/-- C4: for every input text whose stripped length is below the
100-character threshold, `extract_recipe` returns no result without
invoking the external extraction call. -/
theorem short_input_skips_extraction_call (text : String) (svc : LxResult)
    (h : (pyStrip text).length < 100) :
    extract_recipe_run text svc = (false, none) := by
  simp [extract_recipe_run, h]

theorem short_input_skips_extraction_call_witness :
    (pyStrip "hi").length < 100 ∧
      extract_recipe_run "hi" LxResult.raises = (false, none) :=
  ⟨by decide, short_input_skips_extraction_call "hi" LxResult.raises (by decide)⟩

/-- C7: for every input text, when the external extraction call raises,
`extract_recipe` catches the exception and returns no recipe instead of
propagating it. -/
theorem extraction_call_exception_gives_none (text : String) :
    extract_recipe text LxResult.raises = none := by
  simp only [extract_recipe, extract_recipe_run]
  split <;> rfl

/-- C8: `main` exits with code 0 exactly when the API key is truthy and
parsing succeeded; a missing or empty API key exits with code 1 before
`parse_recipe` is ever invoked, and a parse failure also exits with 1. -/
theorem main_exit_codes (k : Option String) (p : Bool) :
    ((mainRun k p).2 = 0 ↔ (apiKeyTruthy k = true ∧ p = true)) ∧
      mainRun none p = (false, 1) ∧ mainRun (some "") p = (false, 1) := by
  refine ⟨?_, by simp [mainRun, apiKeyTruthy], by simp [mainRun, apiKeyTruthy]⟩
  unfold mainRun
  by_cases hk : apiKeyTruthy k = true
  · cases p <;> simp [hk]
  · simp [hk]

/-- C5: a Recipe built from a JSON object that omits every field except the
(mandatory, truthy) title has every one of its seven fields present, the
five text fields defaulted to the empty string and the two sequence fields
to the empty list. -/
theorem omitted_fields_default (text s : String) (h : 100 ≤ (pyStrip text).length)
    (hs : s ≠ "") :
    extract_recipe text (LxResult.ok [⟨"Recipe", .parsed (.obj [("title", .str s)])⟩]) =
      some ⟨s, "", "", "", "", [], []⟩ := by
  simp only [extract_recipe, extract_recipe_run]
  rw [if_neg (by omega)]
  simp [findRecipe, recipeOfPayload, recipeOfJson, truthyGet, Json.lookupField, Json.truthy,
    hs, getIngredientsElems, buildIngredients, getStrField, getInstructionsField]

theorem omitted_fields_default_witness :
    100 ≤ (pyStrip t100).length ∧ ("Cake" : String) ≠ "" ∧
      extract_recipe t100 (LxResult.ok [⟨"Recipe", .parsed (.obj [("title", .str "Cake")])⟩]) =
        some ⟨"Cake", "", "", "", "", [], []⟩ :=
  ⟨by decide, by decide, omitted_fields_default t100 "Cake" (by decide) (by decide)⟩

/-- C6: an ingredient object whose quantity or unit key is absent yields an
Ingredient whose corresponding field is absent (`none`), without raising
and without dropping the ingredient; present keys keep their values. -/
theorem missing_ingredient_keys_absent (text s n : String) (q : Option Rat)
    (u : Option String) (h : 100 ≤ (pyStrip text).length) (hs : s ≠ "") :
    extract_recipe text (LxResult.ok [⟨"Recipe", .parsed
        (.obj [("title", .str s), ("ingredients", .arr [ingredientJson n q u])])⟩]) =
      some ⟨s, "", "", "", "", [⟨n, q, u⟩], []⟩ := by
  simp only [extract_recipe, extract_recipe_run]
  rw [if_neg (by omega)]
  cases q <;> cases u <;>
    simp [findRecipe, recipeOfPayload, recipeOfJson, truthyGet, Json.lookupField, Json.truthy,
      hs, getIngredientsElems, buildIngredients, ingredientOfJson, ingredientJson,
      getStrField, getQuantityField, getUnitField, getInstructionsField]

theorem missing_ingredient_keys_absent_witness :
    100 ≤ (pyStrip t100).length ∧ ("Cake" : String) ≠ "" ∧
      extract_recipe t100 (LxResult.ok [⟨"Recipe", .parsed
          (.obj [("title", .str "Cake"), ("ingredients", .arr [ingredientJson "flour" none none])])⟩]) =
        some ⟨"Cake", "", "", "", "", [⟨"flour", none, none⟩], []⟩ :=
  ⟨by decide, by decide,
    missing_ingredient_keys_absent t100 "Cake" "flour" none none (by decide) (by decide)⟩

/-- The ingredient loop turns a fully-populated triple list into the
corresponding Ingredient list, element by element. -/
theorem buildIngredients_full (ings : List (String × Rat × String)) :
    buildIngredients (ings.map fun t =>
        Json.obj [("name", .str t.1), ("quantity", .num t.2.1), ("unit", .str t.2.2)]) =
      some (ings.map fun t => (⟨t.1, some t.2.1, some t.2.2⟩ : Ingredient)) := by
  induction ings with
  | nil => rfl
  | cons t rest ih =>
      simp [buildIngredients, ingredientOfJson, getStrField, getQuantityField,
        getUnitField, Json.lookupField, ih]

/-- Validating an array of JSON strings as `List[str]` returns the strings. -/
theorem validateStrList_map (instrs : List String) :
    getInstructionsField.validateStrList (instrs.map Json.str) = some instrs := by
  induction instrs with
  | nil => rfl
  | cons s rest ih => simp [getInstructionsField.validateStrList, ih]

/-- C2: a single Recipe-class extraction whose payload is a JSON object
with all Recipe and Ingredient fields populated yields a Recipe carrying
every field value unchanged, ingredient and instruction order included. -/
theorem full_response_round_trips (text title desc pt ct sv : String)
    (ings : List (String × Rat × String)) (instrs : List String)
    (h : 100 ≤ (pyStrip text).length) (htitle : title ≠ "") :
    extract_recipe text (LxResult.ok
        [⟨"Recipe", .parsed (fullRecipeJson title desc pt ct sv ings instrs)⟩]) =
      some ⟨title, desc, pt, ct, sv,
        ings.map (fun t => ⟨t.1, some t.2.1, some t.2.2⟩), instrs⟩ := by
  simp only [extract_recipe, extract_recipe_run]
  rw [if_neg (by omega)]
  simp [findRecipe, recipeOfPayload, recipeOfJson, fullRecipeJson, truthyGet, Json.lookupField,
    Json.truthy, htitle, getIngredientsElems, buildIngredients_full, getStrField,
    getInstructionsField, validateStrList_map]

theorem full_response_round_trips_witness :
    100 ≤ (pyStrip t100).length ∧ ("Pancakes" : String) ≠ "" ∧
      extract_recipe t100 (LxResult.ok
          [⟨"Recipe", .parsed (fullRecipeJson "Pancakes" "Fluffy." "10 minutes" "20 minutes"
              "4 servings" [("flour", 2, "cups"), ("milk", 3/2, "cups")] ["Mix.", "Fry."])⟩]) =
        some ⟨"Pancakes", "Fluffy.", "10 minutes", "20 minutes", "4 servings",
          [⟨"flour", some 2, some "cups"⟩, ⟨"milk", some (3/2), some "cups"⟩],
          ["Mix.", "Fry."]⟩ :=
  ⟨by decide, by decide,
    full_response_round_trips t100 "Pancakes" "Fluffy." "10 minutes" "20 minutes" "4 servings"
      [("flour", 2, "cups"), ("milk", 3/2, "cups")] ["Mix.", "Fry."] (by decide) (by decide)⟩

/-- A title that passed the truthiness guard and then pydantic `str`
validation is a non-empty string. -/
theorem title_truthy_nonempty (fields : List (String × Json)) (t : String)
    (htr : truthyGet fields "title" = true) (hget : getStrField fields "title" = some t) :
    t ≠ "" := by
  unfold truthyGet at htr
  unfold getStrField at hget
  cases hl : Json.lookupField fields "title" with
  | none => rw [hl] at htr; cases htr
  | some v => rw [hl] at htr hget; cases v <;> simp_all [Json.truthy]

/-- Any Recipe the per-extraction handler builds has a non-empty title. -/
theorem recipeOfJson_title_nonempty (j : Json) (r : Recipe)
    (h : recipeOfJson j = some r) : r.title ≠ "" := by
  cases j with
  | obj fields =>
      simp only [recipeOfJson] at h
      by_cases ht : truthyGet fields "title"
      · rw [if_pos ht] at h
        simp only [bind, Option.bind_eq_some, pure, Option.some.injEq] at h
        obtain ⟨elems, -, ings, -, t, hget, d, -, p, -, c, -, s, -, ins, -, hr⟩ := h
        have := title_truthy_nonempty fields t ht hget
        rw [← hr]
        exact this
      · rw [if_neg ht] at h; cases h
  | null => cases h
  | bool b => cases h
  | num q => cases h
  | str s => cases h
  | arr elts => cases h

/-- Any Recipe the extraction loop returns has a non-empty title. -/
theorem findRecipe_title_nonempty (exts : List Extraction) (r : Recipe)
    (h : findRecipe exts = some r) : r.title ≠ "" := by
  induction exts with
  | nil => cases h
  | cons e rest ih =>
      simp only [findRecipe] at h
      split at h
      · cases hp : recipeOfPayload e.extraction_text with
        | none => rw [hp] at h; exact ih h
        | some r0 =>
            rw [hp] at h
            cases h
            cases hq : e.extraction_text with
            | malformed => rw [hq] at hp; cases hp
            | parsed j =>
                rw [hq] at hp
                exact recipeOfJson_title_nonempty j r hp
      · exact ih h

/-- C10: whenever `extract_recipe` returns a Recipe rather than `None`,
that Recipe's title is a non-empty string: every extraction whose parsed
JSON has a missing or falsy title is skipped before a Recipe is built. -/
theorem returned_recipe_title_nonempty (text : String) (svc : LxResult) (r : Recipe)
    (h : extract_recipe text svc = some r) : r.title ≠ "" := by
  unfold extract_recipe extract_recipe_run at h
  split at h
  · cases h
  · simp only [] at h
    cases svc with
    | raises => cases h
    | ok exts => exact findRecipe_title_nonempty exts r h

theorem returned_recipe_title_nonempty_witness :
    (⟨"Cake", "", "", "", "", [], []⟩ : Recipe).title ≠ "" :=
  returned_recipe_title_nonempty t100
    (LxResult.ok [⟨"Recipe", .parsed (.obj [("title", .str "Cake")])⟩])
    ⟨"Cake", "", "", "", "", [], []⟩ (by decide)

/-- The loop passes over an extraction it does not accept. -/
theorem findRecipe_skips (e : Extraction) (rest : List Extraction)
    (h : accepts e = false) : findRecipe (e :: rest) = findRecipe rest := by
  simp only [findRecipe]
  by_cases hc : e.extraction_class = "Recipe"
  · rw [if_pos hc]
    cases hp : recipeOfPayload e.extraction_text with
    | none => rfl
    | some r => rw [accepts, hp] at h; simp [hc] at h
  · rw [if_neg hc]

/-- The loop returns the head's recipe when it accepts the head. -/
theorem findRecipe_accepts_head (e : Extraction) (rest : List Extraction)
    (h : accepts e = true) : findRecipe (e :: rest) = recipeOfPayload e.extraction_text := by
  simp only [accepts, Bool.and_eq_true, beq_iff_eq] at h
  obtain ⟨hc, hs⟩ := h
  simp only [findRecipe, if_pos hc]
  cases hp : recipeOfPayload e.extraction_text with
  | none => rw [hp] at hs; cases hs
  | some r => rfl

/-- The loop returns the recipe of the first accepted extraction. -/
theorem findRecipe_first_accepted :
    ∀ (exts : List Extraction) (i : Nat) (hi : i < exts.length),
      (∀ (j : Nat) (hj : j < exts.length), j < i → accepts (exts.get ⟨j, hj⟩) = false) →
      accepts (exts.get ⟨i, hi⟩) = true →
      findRecipe exts = recipeOfPayload (exts.get ⟨i, hi⟩).extraction_text
  | [], i, hi, _, _ => absurd hi (Nat.not_lt_zero i)
  | e :: rest, 0, _, _, hacc => findRecipe_accepts_head e rest hacc
  | e :: rest, n + 1, hi, hskip, hacc => by
      have he : accepts e = false := hskip 0 (Nat.succ_pos _) (Nat.succ_pos n)
      rw [findRecipe_skips e rest he]
      exact findRecipe_first_accepted rest n (Nat.lt_of_succ_lt_succ hi)
        (fun j hj hlt => hskip (j + 1) (Nat.succ_lt_succ hj) (Nat.succ_lt_succ hlt)) hacc

/-- C1 counterexample: the first extraction has class `"Recipe"`, a payload
parsing as a JSON object, and the non-empty title `"A"`, yet the run skips
it (its null description fails validation) and yields the second object. -/
theorem first_match_claim_counterexample :
    claimConditions
        ⟨"Recipe", .parsed (.obj [("title", Json.str "A"), ("description", Json.null)])⟩ = true ∧
      extract_recipe t100 (LxResult.ok
          [⟨"Recipe", .parsed (.obj [("title", Json.str "A"), ("description", Json.null)])⟩,
           ⟨"Recipe", .parsed (.obj [("title", Json.str "B")])⟩]) =
        some ⟨"B", "", "", "", "", [], []⟩ := by
  decide

/-- C1 (amended): `extract_recipe` selects the first extraction whose class
label is `"Recipe"` and whose payload parses as a JSON object with a
non-empty title and schema-valid fields; every earlier extraction failing
any of these conditions is skipped without aborting the run. -/
theorem first_acceptable_extraction_selected (text : String) (exts : List Extraction)
    (i : Nat) (hi : i < exts.length) (hlen : 100 ≤ (pyStrip text).length)
    (hskip : ∀ (j : Nat) (hj : j < exts.length), j < i → accepts (exts.get ⟨j, hj⟩) = false)
    (hacc : accepts (exts.get ⟨i, hi⟩) = true) :
    extract_recipe text (LxResult.ok exts) =
      recipeOfPayload (exts.get ⟨i, hi⟩).extraction_text := by
  simp only [extract_recipe, extract_recipe_run]
  rw [if_neg (by omega)]
  exact findRecipe_first_accepted exts i hi hskip hacc

theorem first_acceptable_extraction_selected_witness :
    extract_recipe t100 (LxResult.ok [extractionNoTitle, extractionComplete]) =
      some ⟨"Full Cake", "Good.", "", "", "", [], ["Bake."]⟩ :=
  (first_acceptable_extraction_selected t100 [extractionNoTitle, extractionComplete] 1
    (by decide) (by decide) (by decide) (by decide)).trans (by decide)

/-- C3 counterexample: for the title "Tea " the program's output basename
is "tea", while the procedure the claim words (filter the characters,
collapse spaces to underscores, lowercase — with no trailing-space strip)
gives "tea_". -/
theorem slug_claim_counterexample :
    output_basename "Tea " "recipe" = "tea" ∧ slug_per_claim "Tea " = "tea_" := by
  decide

/-- C3 (amended): the output basename is obtained by removing every
character that is not alphanumeric, space, hyphen or underscore, dropping
the trailing whitespace that remains (`rstrip`), collapsing spaces to
underscores and lowercasing; an empty slug falls back to the input stem. -/
theorem slug_matches_amended_claim (title inputStem : String) :
    output_basename title inputStem =
      (if slug_per_claim_amended title = "" then inputStem
       else slug_per_claim_amended title) := by
  rfl

/-- C9: writing the JSON output is deterministic and idempotent: two runs
of the parse step on identical input text, input stem and extraction result
produce the identical output file name and byte-identical JSON content. -/
theorem json_output_deterministic (t1 t2 s1 s2 : String) (v1 v2 : LxResult)
    (ht : t1 = t2) (hs : s1 = s2) (hv : v1 = v2) :
    parse_recipe_json t1 s1 v1 = parse_recipe_json t2 s2 v2 := by
  rw [ht, hs, hv]

theorem json_output_deterministic_witness :
    parse_recipe_json t100 "recipe" (LxResult.ok [extractionComplete]) =
        parse_recipe_json t100 "recipe" (LxResult.ok [extractionComplete]) ∧
      parse_recipe_json t100 "recipe" (LxResult.ok [extractionComplete]) =
        some ("full_cake.json",
          "\x7b\n  \"title\": \"Full Cake\",\n  \"description\": \"Good.\",\n  \"prep_time\": \"\",\n  \"cook_time\": \"\",\n  \"servings\": \"\",\n  \"ingredients\": [],\n  \"instructions\": [\n    \"Bake.\"\n  ]\n\x7d") :=
  ⟨json_output_deterministic t100 t100 "recipe" "recipe"
      (LxResult.ok [extractionComplete]) (LxResult.ok [extractionComplete]) rfl rfl rfl,
    by rfl⟩
